import Mathlib

/-!
# dshell: a shell for interacting with datastores

A shallow embedding of `main.go`.  Go strings and byte slices are lists of
bytes; a Go slice is either `nil` or a backing list; the global `DS`, the shell
prompt and everything the program does to the outside (shell output, files,
datastore calls) live in an explicit `World` whose `trace` records each call
in program order.  What the outside answers (the operating system, the shell,
the datastore libraries) is a parameter `Env`: every answer may depend on the
whole history of calls so far.
-/

namespace Dshell

/-! ## Strings, slices, errors -/

/-- One byte. -/
abbrev Byte := Fin 256

/-- A Go `string`: an immutable sequence of bytes. -/
abbrev GoString := List Byte

/-- The bytes of a string literal of the source (UTF-8). -/
def lit (s : String) : GoString :=
  s.data.flatMap fun ch =>
    (String.utf8EncodeChar ch).map fun b => ⟨b.toNat % 256, Nat.mod_lt _ (by decide)⟩

/-- A Go slice: `nil`, or a non-nil slice over its elements. -/
inductive Slice (α : Type) where
  | nil : Slice α
  | mk (elems : List α) : Slice α
deriving DecidableEq, Repr

namespace Slice

/-- The elements of a slice (`nil` has none). -/
def toList {α : Type} : Slice α → List α
  | nil => []
  | mk xs => xs

/-- Go `make([]T, 0)`: a non-nil slice of length zero. -/
def make {α : Type} : Slice α := mk []

/-- Go `append(s, x)`. -/
def append {α : Type} (s : Slice α) (x : α) : Slice α := mk (s.toList ++ [x])

/-- Go `len(s)`. -/
def len {α : Type} (s : Slice α) : Nat := s.toList.length

end Slice

/-- Go `error` values met by the program. -/
inductive Error where
  /-- the package variable `ERRNoDatastore` -/
  | ERRNoDatastore
  /-- the error `fmt.Errorf("unknown datastore kind: %s", kind)` -/
  | unknownKind (kind : GoString)
  /-- an error produced outside `main.go` (operating system, shell, datastore) -/
  | ext (code : Nat)
deriving DecidableEq, Repr

/-- What a command function gives back: a Go `error` (`nil` or an error), or a
run-time panic. -/
inductive Ret where
  | nil
  | err (e : Error)
  | panic
deriving DecidableEq, Repr

/-! ## The `query` package vocabulary used by `main.go` -/

/-- The comparison operators `query.Op` named in `main.go`. -/
inductive Op where
  | LessThan
  | LessThanOrEqual
  | GreaterThan
  | GreaterThanOrEqual
  | Equal
deriving DecidableEq, Repr

/-- The filters `main.go` constructs. -/
inductive Filter where
  | FilterKeyPrefix (Prefix : GoString)
  | FilterKeyCompare (Op : Op) (Key : GoString)
  | FilterValueCompare (Op : Op) (Value : List Byte)
deriving DecidableEq, Repr

/-- The orders `main.go` constructs. -/
inductive Order where
  | OrderByKey
  | OrderByValue
deriving DecidableEq, Repr

/-- The fields of `query.Query` that `main.go` sets (the zero value of
`Filters` and `Orders` is the nil slice). -/
structure Query where
  Prefix : GoString
  Filters : Slice Filter := Slice.nil
  Orders : Slice Order := Slice.nil
  Limit : Int
  Offset : Int
  KeysOnly : Bool
deriving DecidableEq, Repr

/-- The `query.Entry` fields read by `main.go`. -/
structure Entry where
  Key : GoString
  Value : List Byte
deriving DecidableEq, Repr

/-- One element received from `res.Next()`: an entry and the `Error` field. -/
structure Result where
  Entry : Entry
  Error : Option Error := none
deriving DecidableEq, Repr

/-! ## World, trace and environment -/

/-- One operand of `c.App.Println`. -/
inductive Arg where
  | str (s : GoString)
  | int (n : Int)
  | bool (b : Bool)
  | query (q : Query)
deriving DecidableEq, Repr

/-- The calls the program makes to the outside, in program order. -/
inductive Event where
  | Println (args : List Arg)
  | Write (p : List Byte)
  | SetPrompt (p : GoString)
  | badgerNewDatastore (path : GoString)
  | leveldbNewDatastore (path : GoString)
  | flatfsOpen (path : GoString)
  | dsblobNew (path : GoString)
  | Get (key : GoString)
  | Put (key : GoString) (value : List Byte)
  | Delete (key : GoString)
  | Has (key : GoString)
  | Sync (key : GoString)
  | GetSize (key : GoString)
  | Query (q : Query)
  | MkdirAll (dir : GoString)
  | Create (name : GoString)
  | FileWrite (name : GoString) (p : List Byte)
  | FileClose (name : GoString)
deriving DecidableEq, Repr

/-- The answer of a call into a library: a value, an error, or a panic. -/
inductive Resp (α : Type) where
  | ok (a : α)
  | err (e : Error)
  | panic
deriving DecidableEq, Repr

/-- A value of interface type `datastore.Datastore`: the answers of its
methods, given the history of calls so far. -/
structure Datastore where
  Get : List Event → GoString → Resp (List Byte)
  Put : List Event → GoString → List Byte → Resp Unit
  Delete : List Event → GoString → Resp Unit
  Has : List Event → GoString → Resp Bool
  Sync : List Event → GoString → Resp Unit
  GetSize : List Event → GoString → Resp Int
  Query : List Event → Query → Resp (List Result)

/-- Everything outside `main.go`: the operating system, the shell and the
datastore libraries. -/
structure Env where
  UserHomeDir : List Event → Except Error GoString
  Abs : List Event → GoString → Except Error GoString
  Join : GoString → GoString → GoString
  Dir : GoString → GoString
  NewKey : GoString → GoString
  MkdirAll : List Event → GoString → Option Error
  Create : List Event → GoString → Option Error
  FileWrite : List Event → GoString → List Byte → Except Error Int
  FileClose : List Event → GoString → Option Error
  AppWrite : List Event → List Byte → Option Error
  badgerNewDatastore : List Event → GoString → Option Datastore × Option Error
  leveldbNewDatastore : List Event → GoString → Option Datastore × Option Error
  flatfsOpen : List Event → GoString → Option Datastore × Option Error
  dsblobNew : List Event → GoString → Option Datastore × Option Error

/-- The program state: the global `DS` (`none` is the nil interface), the shell
prompt, and the trace of calls made so far. -/
structure World where
  DS : Option Datastore
  prompt : GoString
  trace : List Event

/-- Record one call. -/
def World.log (w : World) (e : Event) : World := { w with trace := w.trace ++ [e] }

/-- The arguments and flags of one command invocation (`*grumble.Context`):
`c.Args.String`, `c.Flags.String`, `c.Flags.Int`, `c.Flags.Bool`. -/
structure Context where
  ArgsString : String → GoString
  FlagsString : String → GoString
  FlagsInt : String → Int
  FlagsBool : String → Bool

/-- A command function `func(*grumble.Context) error`. -/
abbrev Command := Context → World → Ret × World

/-- The state at program start: no datastore, the configured prompt. -/
def initWorld : World := { DS := none, prompt := lit "dshell()-> ", trace := [] }

/-! ## The functions of `main.go` -/

/-- The byte `'~'`. -/
def tilde : Byte := 126

/-- Source `expandHome`: expand tilde to home directory. -/
def expandHome (env : Env) (hist : List Event) (path : GoString) : GoString × Option Error :=
  if path.length = 0 ∨ path.head? ≠ some tilde then
    (path, none)
  else
    match env.UserHomeDir hist with
    | .error err => (path, some err)
    | .ok home => (env.Join home (path.drop 1), none)

/-- Source `requireDS`. -/
def requireDS (f : Command) : Command := fun c w =>
  match w.DS with
  | none => (Ret.err Error.ERRNoDatastore, w)
  | some _ => f c w

/-- Source `openCommand`. -/
def openCommand (env : Env) : Command := fun c w =>
  let kind := c.ArgsString "kind"
  let path := c.ArgsString "path"
  match expandHome env w.trace path with
  | (_, some err) => (Ret.err err, w)
  | (fpath, none) =>
    match env.Abs w.trace fpath with
    | .error err => (Ret.err err, w)
    | .ok fpath =>
      let r : World × Option Error :=
        if kind = lit "badger" then
          let d := env.badgerNewDatastore w.trace fpath
          ({ w.log (.badgerNewDatastore fpath) with DS := d.1 }, d.2)
        else if kind = lit "leveldb" then
          let d := env.leveldbNewDatastore w.trace fpath
          ({ w.log (.leveldbNewDatastore fpath) with DS := d.1 }, d.2)
        else if kind = lit "flatfs" then
          let d := env.flatfsOpen w.trace fpath
          ({ w.log (.flatfsOpen fpath) with DS := d.1 }, d.2)
        else if kind = lit "blob" then
          let d := env.dsblobNew w.trace path
          ({ w.log (.dsblobNew path) with DS := d.1 }, d.2)
        else
          (w, some (Error.unknownKind kind))
      match r.2 with
      | none =>
        let p := lit "dshell(" ++ kind ++ lit ":" ++ path ++ lit ")-> "
        (Ret.nil, { r.1.log (.SetPrompt p) with prompt := p })
      | some err => (Ret.err err, r.1)

/-- Source `kindsCommand`. -/
def kindsCommand : Command := fun _ w =>
  let w := w.log (.Println [.str (lit "badger")])
  let w := w.log (.Println [.str (lit "blob")])
  let w := w.log (.Println [.str (lit "flatfs")])
  let w := w.log (.Println [.str (lit "leveldb")])
  (Ret.nil, w)

/-- Source `getCommand`. -/
def getCommand (env : Env) : Command := fun c w =>
  match w.DS with
  | none => (Ret.panic, w)
  | some ds =>
    let key := env.NewKey (c.ArgsString "key")
    let save := c.FlagsString "save"
    let w1 := w.log (.Get key)
    match ds.Get w.trace key with
    | .panic => (Ret.panic, w1)
    | .err err => (Ret.err err, w1)
    | .ok val =>
      if save ≠ [] then
        match expandHome env w1.trace save with
        | (_, some err) => (Ret.err err, w1)
        | (save, none) =>
          match env.Abs w1.trace save with
          | .error err => (Ret.err err, w1)
          | .ok save =>
            let w2 := w1.log (.Create save)
            match env.Create w1.trace save with
            | some err => (Ret.err err, w2)
            | none =>
              let w3 := w2.log (.FileWrite save val)
              match env.FileWrite w2.trace save val with
              | .error err => (Ret.err err, w3.log (.FileClose save))
              | .ok n =>
                let w4 := w3.log
                  (.Println [.str (lit "wrote "), .int n, .str (lit " bytes to "), .str save])
                (Ret.nil, w4.log (.FileClose save))
      else if c.FlagsBool "binary" then
        let w2 := w1.log (.Write val)
        match env.AppWrite w1.trace val with
        | some err => (Ret.err err, w2)
        | none => (Ret.nil, w2)
      else
        (Ret.nil, w1.log (.Println [.str val]))

/-- The shape shared by `putCommand`, `delCommand` and `syncCommand`: one
datastore call whose error is the command's result. -/
def returnResp (r : Resp Unit) (w : World) : Ret × World :=
  match r with
  | .panic => (Ret.panic, w)
  | .err err => (Ret.err err, w)
  | .ok _ => (Ret.nil, w)

/-- Source `putCommand`. -/
def putCommand (env : Env) : Command := fun c w =>
  match w.DS with
  | none => (Ret.panic, w)
  | some ds =>
    let key := env.NewKey (c.ArgsString "key")
    let val : List Byte := c.ArgsString "value"
    returnResp (ds.Put w.trace key val) (w.log (.Put key val))

/-- Source `delCommand`. -/
def delCommand (env : Env) : Command := fun c w =>
  match w.DS with
  | none => (Ret.panic, w)
  | some ds =>
    let key := env.NewKey (c.ArgsString "key")
    returnResp (ds.Delete w.trace key) (w.log (.Delete key))

/-- Source `hasCommand`. -/
def hasCommand (env : Env) : Command := fun c w =>
  match w.DS with
  | none => (Ret.panic, w)
  | some ds =>
    let key := env.NewKey (c.ArgsString "key")
    let w1 := w.log (.Has key)
    match ds.Has w.trace key with
    | .panic => (Ret.panic, w1)
    | .err err => (Ret.err err, w1)
    | .ok has => (Ret.nil, w1.log (.Println [.bool has]))

/-- Source `syncCommand`. -/
def syncCommand (env : Env) : Command := fun c w =>
  match w.DS with
  | none => (Ret.panic, w)
  | some ds =>
    let key := env.NewKey (c.ArgsString "key")
    returnResp (ds.Sync w.trace key) (w.log (.Sync key))

/-- Source `sizeCommand`. -/
def sizeCommand (env : Env) : Command := fun c w =>
  match w.DS with
  | none => (Ret.panic, w)
  | some ds =>
    let key := env.NewKey (c.ArgsString "key")
    let w1 := w.log (.GetSize key)
    match ds.GetSize w.trace key with
    | .panic => (Ret.panic, w1)
    | .err err => (Ret.err err, w1)
    | .ok size => (Ret.nil, w1.log (.Println [.int size]))

/-- Source `queryCommand`, the filter list (`filters := make(...)` and the
eleven `if f := c.Flags.String(...); f != ""` blocks). -/
def queryFilters (c : Context) : Slice Filter :=
  let filters : Slice Filter := Slice.make
  let filters :=
    if c.FlagsString "fkp" ≠ [] then
      filters.append (Filter.FilterKeyPrefix (c.FlagsString "fkp"))
    else filters
  let filters :=
    if c.FlagsString "fkl" ≠ [] then
      filters.append (Filter.FilterKeyCompare Op.LessThan (c.FlagsString "fkl"))
    else filters
  let filters :=
    if c.FlagsString "fkle" ≠ [] then
      filters.append (Filter.FilterKeyCompare Op.LessThanOrEqual (c.FlagsString "fkle"))
    else filters
  let filters :=
    if c.FlagsString "fkg" ≠ [] then
      filters.append (Filter.FilterKeyCompare Op.GreaterThan (c.FlagsString "fkg"))
    else filters
  let filters :=
    if c.FlagsString "fkge" ≠ [] then
      filters.append (Filter.FilterKeyCompare Op.GreaterThanOrEqual (c.FlagsString "fkge"))
    else filters
  let filters :=
    if c.FlagsString "fke" ≠ [] then
      filters.append (Filter.FilterKeyCompare Op.Equal (c.FlagsString "fke"))
    else filters
  let filters :=
    if c.FlagsString "fvl" ≠ [] then
      filters.append (Filter.FilterValueCompare Op.LessThan (c.FlagsString "fvl"))
    else filters
  let filters :=
    if c.FlagsString "fvle" ≠ [] then
      filters.append (Filter.FilterValueCompare Op.LessThanOrEqual (c.FlagsString "fvle"))
    else filters
  let filters :=
    if c.FlagsString "fvg" ≠ [] then
      filters.append (Filter.FilterValueCompare Op.GreaterThan (c.FlagsString "fvg"))
    else filters
  let filters :=
    if c.FlagsString "fvge" ≠ [] then
      filters.append (Filter.FilterValueCompare Op.GreaterThanOrEqual (c.FlagsString "fvge"))
    else filters
  let filters :=
    if c.FlagsString "fve" ≠ [] then
      filters.append (Filter.FilterValueCompare Op.Equal (c.FlagsString "fve"))
    else filters
  filters

/-- Source `queryCommand`, the order list (`orders := make(...)` and the two
`if` blocks). -/
def queryOrders (c : Context) : Slice Order :=
  let orders : Slice Order := Slice.make
  let orders :=
    if c.FlagsString "ok" ≠ [] then orders.append Order.OrderByKey else orders
  let orders :=
    if c.FlagsString "ov" ≠ [] then orders.append Order.OrderByValue else orders
  orders

/-- Source `queryCommand`, the literal `qry := query.Query{...}`. -/
def queryLiteral (c : Context) : Query :=
  { Prefix := c.ArgsString "prefix"
    Limit := c.FlagsInt "limit"
    Offset := c.FlagsInt "offset"
    KeysOnly := c.FlagsBool "keys-only" }

/-- Source `queryCommand`, the descriptor passed to `DS.Query`: the literal
with `Filters` and `Orders` assigned only when the lists are not empty. -/
def queryDescriptor (c : Context) : Query :=
  let qry := queryLiteral c
  let qry := if (queryFilters c).len > 0 then { qry with Filters := queryFilters c } else qry
  let qry := if (queryOrders c).len > 0 then { qry with Orders := queryOrders c } else qry
  qry

/-- Source `queryCommand`, the block `if save != ""` after `DS.Query`: the
directory results are saved to. -/
def querySave (env : Env) (hist : List Event) (save : GoString) : Except Error GoString :=
  if save ≠ [] then
    match expandHome env hist save with
    | (_, some err) => .error err
    | (save, none) => env.Abs hist save
  else .ok save

/-- Source `queryCommand`, the body of `for e := range res.Next()`: `none`
when the loop goes on, `some err` when the body returns `err`. -/
def queryBody (env : Env) (c : Context) (save : GoString) (keysOnly : Bool)
    (e : Result) (w : World) : Option Error × World :=
  if save ≠ [] then
    let fn := env.Join save e.Entry.Key
    let dname := env.Dir fn
    let w1 := w.log (.MkdirAll dname)
    match env.MkdirAll w.trace dname with
    | some err => (some err, w1)
    | none =>
      let w2 := w1.log (.Create fn)
      match env.Create w1.trace fn with
      | some err => (some err, w2)
      | none =>
        let w3 := w2.log (.FileWrite fn e.Entry.Value)
        match env.FileWrite w2.trace fn e.Entry.Value with
        | .error err => (some err, w3)
        | .ok n =>
          let w4 := w3.log (.FileClose fn)
          match env.FileClose w3.trace fn with
          | some err => (some err, w4)
          | none =>
            (none, w4.log
              (.Println [.str (lit "wrote "), .int n, .str (lit " bytes to "), .str fn]))
  else
    let w1 := w.log (.Println [.str (lit "KEY: "), .str e.Entry.Key])
    if !keysOnly then
      if c.FlagsBool "binary" then
        let w2 := w1.log (.Write e.Entry.Value)
        match env.AppWrite w1.trace e.Entry.Value with
        | some err => (some err, w2)
        | none => (none, w2)
      else
        (none, w1.log (.Println [.str e.Entry.Value]))
    else
      (none, w1)

/-- Source `queryCommand`, the loop `for e := range res.Next()` followed by
`return nil`. -/
def queryLoop (env : Env) (c : Context) (save : GoString) (keysOnly : Bool) :
    List Result → World → Ret × World
  | [], w => (Ret.nil, w)
  | e :: rest, w =>
    match queryBody env c save keysOnly e w with
    | (some err, w1) => (Ret.err err, w1)
    | (none, w1) => queryLoop env c save keysOnly rest w1

/-- Source `queryCommand`. -/
def queryCommand (env : Env) : Command := fun c w =>
  let keysOnly := c.FlagsBool "keys-only"
  let save := c.FlagsString "save"
  let w0 := w.log (.Println [.str (lit "QUERY: "), .query (queryLiteral c)])
  let qry := queryDescriptor c
  match w0.DS with
  | none => (Ret.panic, w0)
  | some ds =>
    let w1 := w0.log (.Query qry)
    match ds.Query w0.trace qry with
    | .panic => (Ret.panic, w1)
    | .err err => (Ret.err err, w1)
    | .ok res =>
      match querySave env w1.trace save with
      | .error err => (Ret.err err, w1)
      | .ok save => queryLoop env c save keysOnly res w1

/-- Source `main`: the commands registered with `app.AddCommand`, by name. -/
def commands (env : Env) : List (String × Command) :=
  [ ("open", openCommand env),
    ("kinds", kindsCommand),
    ("get", requireDS (getCommand env)),
    ("put", requireDS (putCommand env)),
    ("del", requireDS (delCommand env)),
    ("has", requireDS (hasCommand env)),
    ("sync", requireDS (syncCommand env)),
    ("size", requireDS (sizeCommand env)),
    ("query", requireDS (queryCommand env)) ]

/-- Run the command registered under `name`; `none` when no command has that
name (the shell rejects the line before any command function runs). -/
def run (env : Env) (name : String) (c : Context) (w : World) : Option (Ret × World) :=
  ((commands env).lookup name).map fun f => f c w

/-! ## Vocabulary of the specification -/

/-- The eleven filter flags, in the order of their declaration. -/
def filterFlags : List String :=
  ["fkp", "fkl", "fkle", "fkg", "fkge", "fke", "fvl", "fvle", "fvg", "fvge", "fve"]

/-- The two order flags. -/
def orderFlags : List String := ["ok", "ov"]

/-- The filter each flag's help text names, as a function of the flag value:
`fkp` "filter by key prefix", `fkl` "filter by key less than", and so on. -/
def filterTable : List (String × (GoString → Filter)) :=
  [ ("fkp", fun v => Filter.FilterKeyPrefix v),
    ("fkl", fun v => Filter.FilterKeyCompare Op.LessThan v),
    ("fkle", fun v => Filter.FilterKeyCompare Op.LessThanOrEqual v),
    ("fkg", fun v => Filter.FilterKeyCompare Op.GreaterThan v),
    ("fkge", fun v => Filter.FilterKeyCompare Op.GreaterThanOrEqual v),
    ("fke", fun v => Filter.FilterKeyCompare Op.Equal v),
    ("fvl", fun v => Filter.FilterValueCompare Op.LessThan v),
    ("fvle", fun v => Filter.FilterValueCompare Op.LessThanOrEqual v),
    ("fvg", fun v => Filter.FilterValueCompare Op.GreaterThan v),
    ("fvge", fun v => Filter.FilterValueCompare Op.GreaterThanOrEqual v),
    ("fve", fun v => Filter.FilterValueCompare Op.Equal v) ]

/-- One filter per non-empty flag, none for an empty one, in table order. -/
def expectedFilters (c : Context) : List Filter :=
  filterTable.filterMap fun nf =>
    if c.FlagsString nf.1 ≠ [] then some (nf.2 (c.FlagsString nf.1)) else none

/-- The orders the claim describes: `OrderByKey` if `ok` is given, then
`OrderByValue` if `ov` is given. -/
def expectedOrders (c : Context) : List Order :=
  (if c.FlagsString "ok" ≠ [] then [Order.OrderByKey] else []) ++
    (if c.FlagsString "ov" ≠ [] then [Order.OrderByValue] else [])

/-- The descriptors handed to `DS.Query` along a trace. -/
def queriesOf (tr : List Event) : List Query :=
  tr.filterMap fun ev =>
    match ev with
    | .Query q => some q
    | _ => none

/-! ## Concrete environments used for evaluation -/

/-- A datastore whose `Query` answers `rs` and whose other methods find
nothing. -/
def constDS (rs : Resp (List Result)) : Datastore :=
  { Get := fun _ _ => .err (Error.ext 404)
    Put := fun _ _ _ => .ok ()
    Delete := fun _ _ => .ok ()
    Has := fun _ _ => .ok false
    Sync := fun _ _ => .ok ()
    GetSize := fun _ _ => .err (Error.ext 404)
    Query := fun _ _ => rs }

/-- The methods of a nil `*Datastore` stored in the interface: every call
dereferences the nil pointer. -/
def nilPointerDS : Datastore :=
  { Get := fun _ _ => .panic
    Put := fun _ _ _ => .panic
    Delete := fun _ _ => .panic
    Has := fun _ _ => .panic
    Sync := fun _ _ => .panic
    GetSize := fun _ _ => .panic
    Query := fun _ _ => .panic }

/-- The directory part of a slash-separated path without trailing slash. -/
def dirOf (p : GoString) : GoString :=
  ((p.reverse.dropWhile fun b => b ≠ 47).drop 1).reverse

/-- An environment in which every operation succeeds: the home directory is
`home` (or the lookup fails with `ext 2` when `home` is `none`), absolute
paths are their own absolute form, joining concatenates (the second path
starts with a slash in the uses below), every write reports the number of
bytes written, and every datastore constructor answers `ctor`. -/
def testEnv (home : Option GoString) (ctor : Option Datastore × Option Error) : Env :=
  { UserHomeDir := fun _ => match home with
      | some h => .ok h
      | none => .error (Error.ext 2)
    Abs := fun _ p => .ok p
    Join := fun a b => a ++ b
    Dir := dirOf
    NewKey := fun k => k
    MkdirAll := fun _ _ => none
    Create := fun _ _ => none
    FileWrite := fun _ _ p => .ok p.length
    FileClose := fun _ _ => none
    AppWrite := fun _ _ => none
    badgerNewDatastore := fun _ _ => ctor
    leveldbNewDatastore := fun _ _ => ctor
    flatfsOpen := fun _ _ => ctor
    dsblobNew := fun _ _ => ctor }

/-- A context from association lists; a name that is not listed has the
default value of its flag (`""`, `0`, `false`). -/
def mkContext (args flags : List (String × String)) (ints : List (String × Int))
    (bools : List (String × Bool)) : Context :=
  { ArgsString := fun n => lit ((args.lookup n).getD "")
    FlagsString := fun n => lit ((flags.lookup n).getD "")
    FlagsInt := fun n => (ints.lookup n).getD 0
    FlagsBool := fun n => (bools.lookup n).getD false }

/-- What the store answers to the `DS.Query` call of this invocation: the call
is made after the `QUERY:` line has been printed. -/
def queryAnswer (ds : Datastore) (c : Context) (w : World) : Resp (List Result) :=
  ds.Query (w.log (.Println [.str (lit "QUERY: "), .query (queryLiteral c)])).trace
    (queryDescriptor c)

/-- The world in which `queryCommand` resolves `save` and runs its loop: the
`QUERY:` line printed and `DS.Query` called. -/
def afterQuery (c : Context) (w : World) : World :=
  (w.log (.Println [.str (lit "QUERY: "), .query (queryLiteral c)])).log
    (.Query (queryDescriptor c))

/-- The same result with its `Error` field cleared. -/
def clearError (r : Result) : Result := { r with Error := none }

/-- The same datastore, except that the results of `Query` carry no `Error`. -/
def withoutErrors (ds : Datastore) : Datastore :=
  { ds with Query := fun hist q =>
      match ds.Query hist q with
      | .ok rs => .ok (rs.map clearError)
      | .err err => .err err
      | .panic => .panic }

/-- One thing `queryCommand` emits for an entry: the key line on the shell,
the value as a line on the shell, the value written raw to the shell, or the
value written to a file. -/
inductive Emission where
  | key (k : GoString)
  | line (v : List Byte)
  | raw (v : List Byte)
  | file (name : GoString) (v : List Byte)
deriving DecidableEq, Repr

/-- What a trace emits: the `KEY: ` lines, the value lines, the raw writes to
the shell and the writes to files, in program order. -/
def emissions (tr : List Event) : List Emission :=
  tr.filterMap fun ev =>
    match ev with
    | .Println [.str label, .str k] => if label = lit "KEY: " then some (.key k) else none
    | .Println [.str v] => some (.line v)
    | .Write v => some (.raw v)
    | .FileWrite name v => some (.file name v)
    | _ => none

/-- What emitting one result of the backend amounts to: with a save directory
its value in the file named by the directory and its key; without, its key
line and, unless keys-only is set, its value (raw with `--binary`, as a line
otherwise). -/
def entryEmissions (env : Env) (c : Context) (dir : GoString) (r : Result) : List Emission :=
  if dir ≠ [] then
    [.file (env.Join dir r.Entry.Key) r.Entry.Value]
  else
    .key r.Entry.Key ::
      (if c.FlagsBool "keys-only" then []
       else if c.FlagsBool "binary" then [.raw r.Entry.Value]
       else [.line r.Entry.Value])

/-- Modelled from the spec: byte-wise lexicographic comparison, shorter is
less when one sequence is a strict prefix of the other (the comparison is
done by the `query` package, which is not part of `main.go`). -/
def compareBytes : List Byte → List Byte → Ordering
  | [], [] => .eq
  | [], _ :: _ => .lt
  | _ :: _, [] => .gt
  | a :: as, b :: bs =>
    if a < b then .lt else if b < a then .gt else compareBytes as bs

/-- Modelled from the spec: whether a comparison outcome satisfies an operator
of {<, <=, >, >=, ==}. -/
def Op.holds : Op → Ordering → Bool
  | .LessThan, o => o == .lt
  | .LessThanOrEqual, o => o != .gt
  | .GreaterThan, o => o == .gt
  | .GreaterThanOrEqual, o => o != .lt
  | .Equal, o => o == .eq

/-- Modelled from the spec: whether an entry satisfies a filter (the filters
are evaluated by the `query` package, which is not part of `main.go`).
KeyPrefix matches if the key starts with the prefix; KeyCompare and
ValueCompare compare the entry's key, or value, against the reference. -/
def Filter.passes : Filter → Entry → Bool
  | .FilterKeyPrefix p, e => p.isPrefixOf e.Key
  | .FilterKeyCompare op k, e => op.holds (compareBytes e.Key k)
  | .FilterValueCompare op v, e => op.holds (compareBytes e.Value v)

/-- The lines printed with a single string operand along a trace. -/
def printedLines (tr : List Event) : List GoString :=
  tr.filterMap fun ev =>
    match ev with
    | .Println [.str s] => some s
    | _ => none

/-- The kinds `kindsCommand` lists: the lines it prints. -/
def listedKinds : List GoString :=
  printedLines (kindsCommand (mkContext [] [] [] []) initWorld).2.trace

/-- Whether a call is a call of a datastore constructor. -/
def isConstructor : Event → Bool
  | .badgerNewDatastore _ => true
  | .leveldbNewDatastore _ => true
  | .flatfsOpen _ => true
  | .dsblobNew _ => true
  | _ => false

/-- The constructor calls along a trace. -/
def constructions (tr : List Event) : List Event := tr.filter isConstructor

/-- The path `openCommand` resolves before it looks at the kind:
`expandHome` followed by `filepath.Abs`, either of which may fail. -/
def resolvePath (env : Env) (hist : List Event) (path : GoString) : Except Error GoString :=
  match expandHome env hist path with
  | (_, some err) => .error err
  | (fpath, none) => env.Abs hist fpath

/-- The store commands: the commands registered through `requireDS`. -/
def storeCommands : List String := ["get", "put", "del", "has", "sync", "size", "query"]

/-- A query with no filter and no order flag. -/
def plainQuery : Context := mkContext [("prefix", "/")] [] [] []

/-- A world with an open datastore whose `Query` answers `rs`. -/
def openWorld (rs : Resp (List Result)) : World :=
  { initWorld with DS := some (constDS rs) }

/-- The environment in which every operation succeeds and there is no home
directory. -/
def plainEnv : Env := testEnv none (none, none)

/-- An environment whose datastore constructors fail with `ext 1`, returning a
nil pointer of their datastore type (which the assignment to `DS` wraps in a
non-nil interface value). -/
def failingOpenEnv : Env := testEnv (some (lit "/home/u")) (some nilPointerDS, some (Error.ext 1))

/-- A query with offset `-1` and limit `-5`. -/
def negativeQuery : Context :=
  mkContext [("prefix", "/")] [] [("offset", -1), ("limit", -5)] []

/-- A query with `--keys-only` and `--save /tmp/out`. -/
def keysOnlySaveQuery : Context :=
  mkContext [("prefix", "/")] [("save", "/tmp/out")] [] [("keys-only", true)]

/-- A query with `--fkp /a`. -/
def prefixQuery : Context := mkContext [("prefix", "/")] [("fkp", "/a")] [] []

/-- A query with `--fkp /a --fve x`. -/
def prefixValueQuery : Context :=
  mkContext [("prefix", "/")] [("fkp", "/a"), ("fve", "x")] [] []

/-- The entry `/a` with value `x`. -/
def entryA : Result := { Entry := { Key := lit "/a", Value := lit "x" } }

/-- The entry `/b` with value `1`. -/
def entryB : Result := { Entry := { Key := lit "/b", Value := lit "1" } }

/-- An element reporting a read failure of the source. -/
def failedRead : Result := { Entry := { Key := [], Value := [] }, Error := some (Error.ext 5) }

/-- The invocation `open badger /data`. -/
def openBadger : Context := mkContext [("kind", "badger"), ("path", "/data")] [] [] []

/-- The invocation `open badger ~/data`. -/
def openBadgerHome : Context := mkContext [("kind", "badger"), ("path", "~/data")] [] [] []

/-- The invocation `open sqlite ~/data`. -/
def openUnknownHome : Context := mkContext [("kind", "sqlite"), ("path", "~/data")] [] [] []

/-- The invocation `open sqlite /data`. -/
def openUnknown : Context := mkContext [("kind", "sqlite"), ("path", "/data")] [] [] []

/-- The invocation `get /k`. -/
def getKey : Context := mkContext [("key", "/k")] [] [] []

/-- An environment in which every operation succeeds, the home directory is
`/home/u`, and every datastore constructor returns an empty datastore. -/
def workingEnv : Env := testEnv (some (lit "/home/u")) (some (constDS (.ok [])), none)

/-! ## Lemmas -/

/-! ### Slices and the descriptor -/

theorem append_if {α : Type} (p : Prop) [Decidable p] (xs : List α) (x : α) :
    (if p then (Slice.mk xs).append x else Slice.mk xs)
      = Slice.mk (xs ++ if p then [x] else []) := by
  by_cases h : p <;> simp [h, Slice.append, Slice.toList]

theorem filterMap_cons_if {α β : Type} (f : α → β) (p : α → Prop) [DecidablePred p]
    (x : α) (xs : List α) :
    (x :: xs).filterMap (fun a => if p a then some (f a) else none)
      = (if p x then [f x] else []) ++ xs.filterMap (fun a => if p a then some (f a) else none) := by
  by_cases h : p x <;> simp [List.filterMap_cons, h]

theorem queryFilters_eq (c : Context) : queryFilters c = Slice.mk (expectedFilters c) := by
  unfold expectedFilters filterTable
  simp only [filterMap_cons_if (fun nf : String × (GoString → Filter) => nf.2 (c.FlagsString nf.1))
    (fun nf => c.FlagsString nf.1 ≠ []), List.filterMap_nil, List.append_nil]
  simp only [queryFilters, Slice.make, append_if, List.nil_append, List.append_assoc]

theorem queryOrders_eq (c : Context) : queryOrders c = Slice.mk (expectedOrders c) := by
  simp only [queryOrders, Slice.make, append_if, expectedOrders, List.nil_append]

theorem expectedFilters_eq_nil (c : Context) :
    expectedFilters c = [] ↔ ∀ n ∈ filterFlags, c.FlagsString n = [] := by
  simp [expectedFilters, filterTable, filterFlags, List.filterMap_eq_nil_iff]

theorem expectedOrders_eq_nil (c : Context) :
    expectedOrders c = [] ↔ ∀ n ∈ orderFlags, c.FlagsString n = [] := by
  simp only [expectedOrders, orderFlags, List.mem_cons, List.mem_singleton, forall_eq_or_imp,
    forall_eq, List.append_eq_nil, List.not_mem_nil, false_imp_iff, implies_true, and_true]
  by_cases h1 : c.FlagsString "ok" = [] <;> by_cases h2 : c.FlagsString "ov" = [] <;> simp [h1, h2]

theorem queryDescriptor_Filters (c : Context) :
    (queryDescriptor c).Filters
      = if expectedFilters c = [] then Slice.nil else Slice.mk (expectedFilters c) := by
  simp only [queryDescriptor, queryFilters_eq, queryOrders_eq, Slice.len, Slice.toList,
    List.length_pos, queryLiteral]
  by_cases h1 : expectedFilters c = [] <;> by_cases h2 : expectedOrders c = [] <;> simp [h1, h2]

theorem queryDescriptor_Orders (c : Context) :
    (queryDescriptor c).Orders
      = if expectedOrders c = [] then Slice.nil else Slice.mk (expectedOrders c) := by
  simp only [queryDescriptor, queryFilters_eq, queryOrders_eq, Slice.len, Slice.toList,
    List.length_pos, queryLiteral]
  by_cases h1 : expectedFilters c = [] <;> by_cases h2 : expectedOrders c = [] <;> simp [h1, h2]

theorem queryDescriptor_Offset (c : Context) :
    (queryDescriptor c).Offset = c.FlagsInt "offset" ∧
      (queryDescriptor c).Limit = c.FlagsInt "limit" := by
  simp only [queryDescriptor, queryLiteral]
  constructor <;> (split <;> split <;> rfl)

/-! ### The trace of `queryCommand` -/

theorem queriesOf_log (w : World) (ev : Event) :
    queriesOf (w.log ev).trace = queriesOf w.trace ++ queriesOf [ev] := by
  simp [queriesOf, World.log, List.filterMap_append]

theorem queryBody_queries (env : Env) (c : Context) (save : GoString) (keysOnly : Bool)
    (e : Result) (w : World) :
    queriesOf (queryBody env c save keysOnly e w).2.trace = queriesOf w.trace := by
  unfold queryBody
  dsimp only
  repeat' split
  all_goals (simp only [queriesOf_log]; simp [queriesOf])

theorem queryLoop_queries (env : Env) (c : Context) (save : GoString) (keysOnly : Bool)
    (rs : List Result) (w : World) :
    queriesOf (queryLoop env c save keysOnly rs w).2.trace = queriesOf w.trace := by
  induction rs generalizing w with
  | nil => rfl
  | cons e rest ih =>
    have hb := queryBody_queries env c save keysOnly e w
    unfold queryLoop
    split
    · next err w1 heq => rw [heq] at hb; exact hb
    · next w1 heq => rw [heq] at hb; rw [ih w1]; exact hb

theorem queryCommand_queries (env : Env) (c : Context) (w : World) (ds : Datastore)
    (h : w.DS = some ds) :
    queriesOf (queryCommand env c w).2.trace = queriesOf w.trace ++ [queryDescriptor c] := by
  have hds : (w.log (.Println [.str (lit "QUERY: "), .query (queryLiteral c)])).DS = some ds := h
  unfold queryCommand
  simp only [hds]
  repeat' split
  all_goals (simp only [queryLoop_queries, queriesOf_log]; simp [queriesOf])


theorem emissions_log (w : World) (ev : Event) :
    emissions (w.log ev).trace = emissions w.trace ++ emissions [ev] := by
  simp [emissions, World.log, List.filterMap_append]

theorem queryBody_emissions (env : Env) (c : Context) (dir : GoString)
    (e : Result) (w : World) :
    emissions (queryBody env c dir (c.FlagsBool "keys-only") e w).2.trace
        = emissions w.trace ++ entryEmissions env c dir e ∨
    ((queryBody env c dir (c.FlagsBool "keys-only") e w).1 ≠ none ∧
      emissions (queryBody env c dir (c.FlagsBool "keys-only") e w).2.trace
        = emissions w.trace) := by
  unfold queryBody entryEmissions
  dsimp only
  repeat' split
  all_goals (simp only [emissions_log]; simp_all [emissions])

theorem queryLoop_emissions (env : Env) (c : Context) (dir : GoString)
    (rs : List Result) (w : World) :
    ∃ n, n ≤ rs.length ∧
      emissions (queryLoop env c dir (c.FlagsBool "keys-only") rs w).2.trace
        = emissions w.trace ++ (rs.take n).flatMap (entryEmissions env c dir) ∧
      ((queryLoop env c dir (c.FlagsBool "keys-only") rs w).1 = Ret.nil → n = rs.length) := by
  induction rs generalizing w with
  | nil => exact ⟨0, le_refl _, by simp [queryLoop], fun _ => rfl⟩
  | cons e rest ih =>
    have hb := queryBody_emissions env c dir e w
    unfold queryLoop
    split
    · next err w1 heq =>
      rw [heq] at hb
      rcases hb with hb | ⟨_, hb⟩
      · exact ⟨1, by simp, by simpa using hb, fun hne => by cases hne⟩
      · exact ⟨0, by simp, by simpa using hb, fun hne => by cases hne⟩
    · next w1 heq =>
      rw [heq] at hb
      rcases hb with hb | ⟨hne, _⟩
      · obtain ⟨n, hn, hem, hfull⟩ := ih w1
        refine ⟨n + 1, by simpa using hn, ?_, fun hnil => by simpa using hfull hnil⟩
        simp only [] at hb
        rw [hem, hb]
        simp
      · exact absurd rfl hne

theorem queryCommand_ok (env : Env) (c : Context) (w : World) (ds : Datastore)
    (rs : List Result) (h : w.DS = some ds) (hq : queryAnswer ds c w = .ok rs) :
    queryCommand env c w =
      match querySave env (afterQuery c w).trace (c.FlagsString "save") with
      | .error err => (Ret.err err, afterQuery c w)
      | .ok dir => queryLoop env c dir (c.FlagsBool "keys-only") rs (afterQuery c w) := by
  have hds : (w.log (.Println [.str (lit "QUERY: "), .query (queryLiteral c)])).DS = some ds := h
  unfold queryAnswer at hq
  unfold queryCommand afterQuery
  simp only [hds, hq]

theorem queryCommand_err (env : Env) (c : Context) (w : World) (ds : Datastore)
    (err : Error) (h : w.DS = some ds) (hq : queryAnswer ds c w = .err err) :
    queryCommand env c w = (Ret.err err, afterQuery c w) := by
  have hds : (w.log (.Println [.str (lit "QUERY: "), .query (queryLiteral c)])).DS = some ds := h
  unfold queryAnswer at hq
  unfold queryCommand afterQuery
  simp only [hds, hq]

theorem queryCommand_panic (env : Env) (c : Context) (w : World) (ds : Datastore)
    (h : w.DS = some ds) (hq : queryAnswer ds c w = .panic) :
    queryCommand env c w = (Ret.panic, afterQuery c w) := by
  have hds : (w.log (.Println [.str (lit "QUERY: "), .query (queryLiteral c)])).DS = some ds := h
  unfold queryAnswer at hq
  unfold queryCommand afterQuery
  simp only [hds, hq]

/-! ### Errors of individual results -/

theorem queryLoop_clearError (env : Env) (c : Context) (dir : GoString) (keysOnly : Bool)
    (rs : List Result) (w : World) :
    queryLoop env c dir keysOnly (rs.map clearError) w = queryLoop env c dir keysOnly rs w := by
  induction rs generalizing w with
  | nil => rfl
  | cons e rest ih =>
    have hb : queryBody env c dir keysOnly (clearError e) w = queryBody env c dir keysOnly e w :=
      rfl
    simp only [List.map_cons, queryLoop, hb]
    split
    · rfl
    · exact ih _

theorem queryBody_print_ok (env : Env) (c : Context) (keysOnly : Bool) (e : Result) (w : World)
    (hw : ∀ hist p, env.AppWrite hist p = none) :
    (queryBody env c [] keysOnly e w).1 = none := by
  unfold queryBody
  dsimp only
  repeat' split
  all_goals simp_all

theorem queryLoop_print_ok (env : Env) (c : Context) (keysOnly : Bool) (rs : List Result)
    (w : World) (hw : ∀ hist p, env.AppWrite hist p = none) :
    (queryLoop env c [] keysOnly rs w).1 = Ret.nil := by
  induction rs generalizing w with
  | nil => rfl
  | cons e rest ih =>
    have hb := queryBody_print_ok env c keysOnly e w hw
    unfold queryLoop
    split
    · next err w1 heq => rw [heq] at hb; cases hb
    · exact ih _

theorem queryBody_DS (env : Env) (c : Context) (dir : GoString) (keysOnly : Bool)
    (e : Result) (w : World) (d : Option Datastore) :
    queryBody env c dir keysOnly e { w with DS := d }
      = ((queryBody env c dir keysOnly e w).1,
          { (queryBody env c dir keysOnly e w).2 with DS := d }) := by
  unfold queryBody
  dsimp only [World.log]
  repeat' split
  all_goals rfl

theorem queryLoop_DS (env : Env) (c : Context) (dir : GoString) (keysOnly : Bool)
    (rs : List Result) (w : World) (d : Option Datastore) :
    queryLoop env c dir keysOnly rs { w with DS := d }
      = ((queryLoop env c dir keysOnly rs w).1,
          { (queryLoop env c dir keysOnly rs w).2 with DS := d }) := by
  induction rs generalizing w with
  | nil => rfl
  | cons e rest ih =>
    simp only [queryLoop, queryBody_DS]
    split
    · next err w1 heq =>
      cases hq : queryBody env c dir keysOnly e w with
      | mk o w2 =>
        rw [hq] at heq
        simp only [Prod.mk.injEq] at heq
        obtain ⟨h1, h2⟩ := heq
        subst h1
        simp [← h2]
    · next w1 heq =>
      cases hq : queryBody env c dir keysOnly e w with
      | mk o w2 =>
        rw [hq] at heq
        simp only [Prod.mk.injEq] at heq
        obtain ⟨h1, h2⟩ := heq
        subst h1
        simp only [← h2]
        exact ih w2

/-! ## The claims -/

/-- C1. The descriptor `queryCommand` hands to `DS.Query` (the one and only
descriptor it hands over) has `Filters` nil exactly when all eleven filter
flags are empty and a non-nil, non-empty `Filters` exactly when some filter
flag is non-empty; likewise `Orders` with the two order flags. -/
theorem queryCommand_descriptor_presence (env : Env) (c : Context) (w : World)
    (ds : Datastore) (h : w.DS = some ds) :
    queriesOf (queryCommand env c w).2.trace = queriesOf w.trace ++ [queryDescriptor c] ∧
    ((queryDescriptor c).Filters = Slice.nil ↔ ∀ n ∈ filterFlags, c.FlagsString n = []) ∧
    ((∃ f fs, (queryDescriptor c).Filters = Slice.mk (f :: fs)) ↔
      ∃ n ∈ filterFlags, c.FlagsString n ≠ []) ∧
    ((queryDescriptor c).Orders = Slice.nil ↔ ∀ n ∈ orderFlags, c.FlagsString n = []) ∧
    ((∃ o os, (queryDescriptor c).Orders = Slice.mk (o :: os)) ↔
      ∃ n ∈ orderFlags, c.FlagsString n ≠ []) := by
  refine ⟨queryCommand_queries env c w ds h, ?_, ?_, ?_, ?_⟩
  · rw [queryDescriptor_Filters, ← expectedFilters_eq_nil]
    by_cases hnil : expectedFilters c = [] <;> simp [hnil]
  · rw [queryDescriptor_Filters]
    have hiff := expectedFilters_eq_nil c
    by_cases hnil : expectedFilters c = []
    · have hall := hiff.mp hnil
      simp only [hnil, if_true]
      constructor
      · rintro ⟨f, fs, hf⟩; cases hf
      · rintro ⟨n, hn, hne⟩; exact absurd (hall n hn) hne
    · simp only [hnil, if_false]
      constructor
      · intro _
        by_contra hcon
        push_neg at hcon
        exact hnil (hiff.mpr hcon)
      · intro _
        cases hx : expectedFilters c with
        | nil => exact absurd hx hnil
        | cons f fs => exact ⟨f, fs, rfl⟩
  · rw [queryDescriptor_Orders, ← expectedOrders_eq_nil]
    by_cases hnil : expectedOrders c = [] <;> simp [hnil]
  · rw [queryDescriptor_Orders]
    have hiff := expectedOrders_eq_nil c
    by_cases hnil : expectedOrders c = []
    · have hall := hiff.mp hnil
      simp only [hnil, if_true]
      constructor
      · rintro ⟨f, fs, hf⟩; cases hf
      · rintro ⟨n, hn, hne⟩; exact absurd (hall n hn) hne
    · simp only [hnil, if_false]
      constructor
      · intro _
        by_contra hcon
        push_neg at hcon
        exact hnil (hiff.mpr hcon)
      · intro _
        cases hx : expectedOrders c with
        | nil => exact absurd hx hnil
        | cons f fs => exact ⟨f, fs, rfl⟩

/-- Witness of C1: a query without filter and order flags, on an open store. -/
theorem queryCommand_descriptor_presence_witness :
    queriesOf (queryCommand plainEnv plainQuery (openWorld (.ok []))).2.trace
        = queriesOf (openWorld (.ok [])).trace ++ [queryDescriptor plainQuery] ∧
    (queryDescriptor plainQuery).Filters = Slice.nil ∧
    (queryDescriptor plainQuery).Orders = Slice.nil :=
  have h := queryCommand_descriptor_presence plainEnv plainQuery
    (openWorld (.ok [])) (constDS (.ok [])) rfl
  ⟨h.1, h.2.1.mpr (by decide), h.2.2.2.1.mpr (by decide)⟩

/-- C2. The filter list `queryCommand` builds holds exactly one filter per
non-empty filter flag and none for an empty one, in the order fkp, fkl, fkle,
fkg, fkge, fke, fvl, fvle, fvg, fvge, fve, each filter being the one the flag's
help text names with the flag value as its reference; whenever the list is not
empty it is the `Filters` field of the descriptor. -/
theorem queryCommand_filters_per_flag (c : Context) :
    queryFilters c = Slice.mk (expectedFilters c) ∧
    (queryDescriptor c).Filters.toList = expectedFilters c := by
  refine ⟨queryFilters_eq c, ?_⟩
  rw [queryDescriptor_Filters]
  by_cases hnil : expectedFilters c = [] <;> simp [hnil, Slice.toList]

/-- C7. The order list `queryCommand` builds is `OrderByKey` if `ok` is
non-empty, followed by `OrderByValue` if `ov` is non-empty, whatever the flag
values are; it is the `Orders` field of the descriptor whenever not empty. -/
theorem queryCommand_orders_per_flag (c : Context) :
    queryOrders c = Slice.mk
      ((if c.FlagsString "ok" ≠ [] then [Order.OrderByKey] else []) ++
        (if c.FlagsString "ov" ≠ [] then [Order.OrderByValue] else [])) ∧
    (queryDescriptor c).Orders.toList =
      (if c.FlagsString "ok" ≠ [] then [Order.OrderByKey] else []) ++
        (if c.FlagsString "ov" ≠ [] then [Order.OrderByValue] else []) := by
  refine ⟨queryOrders_eq c, ?_⟩
  rw [queryDescriptor_Orders]
  by_cases hnil : expectedOrders c = []
  · simp only [hnil, if_true, Slice.toList]; exact hnil.symm
  · simp only [hnil, if_false, Slice.toList]; rfl

/-- C10. `expandHome` returns a path that is empty or does not start with
`~` unchanged with a nil error; for a path starting with `~` it returns
`filepath.Join(home, path[1:])` with a nil error when the home directory
lookup gives `home`, and the original path with the lookup's error when the
lookup fails. -/
theorem expandHome_spec (env : Env) (hist : List Event) (path : GoString) :
    ((path = [] ∨ path.head? ≠ some tilde) → expandHome env hist path = (path, none)) ∧
    (path.head? = some tilde → ∀ home, env.UserHomeDir hist = .ok home →
      expandHome env hist path = (env.Join home (path.drop 1), none)) ∧
    (path.head? = some tilde → ∀ err, env.UserHomeDir hist = .error err →
      expandHome env hist path = (path, some err)) := by
  refine ⟨?_, ?_, ?_⟩
  · intro h
    have h' : path.length = 0 ∨ path.head? ≠ some tilde := by
      rcases h with h | h
      · exact Or.inl (by simp [h])
      · exact Or.inr h
    simp only [expandHome, if_pos h']
  · intro h home hh
    have h' : ¬ (path.length = 0 ∨ path.head? ≠ some tilde) := by
      rintro (h0 | h1)
      · rw [List.length_eq_zero] at h0; simp [h0] at h
      · exact h1 h
    simp only [expandHome, if_neg h', hh]
  · intro h err hh
    have h' : ¬ (path.length = 0 ∨ path.head? ≠ some tilde) := by
      rintro (h0 | h1)
      · rw [List.length_eq_zero] at h0; simp [h0] at h
      · exact h1 h
    simp only [expandHome, if_neg h', hh]

/-- Witness of C10: a relative path, `~/x` with home `/home/u`, and `~/x`
when the home directory lookup fails. -/
theorem expandHome_spec_witness :
    expandHome plainEnv [] (lit "data/x") = (lit "data/x", none) ∧
    expandHome (testEnv (some (lit "/home/u")) (none, none)) [] (lit "~/x")
      = (lit "/home/u/x", none) ∧
    expandHome plainEnv [] (lit "~/x") = (lit "~/x", some (Error.ext 2)) :=
  ⟨(expandHome_spec plainEnv [] (lit "data/x")).1 (Or.inr (by decide)),
   (expandHome_spec (testEnv (some (lit "/home/u")) (none, none)) [] (lit "~/x")).2.1
      (by decide) (lit "/home/u") rfl,
   (expandHome_spec plainEnv [] (lit "~/x")).2.2 (by decide)
      (Error.ext 2) rfl⟩

/-- C3, as stated, fails: with offset `-1` and limit `-5` on an open store that
answers an empty result, `queryCommand` calls `DS.Query` with these values and
returns nil. -/
theorem queryCommand_negative_offset_counterexample :
    negativeQuery.FlagsInt "offset" = -1 ∧ negativeQuery.FlagsInt "limit" = -5 ∧
    (queryCommand plainEnv negativeQuery (openWorld (.ok []))).1 = Ret.nil ∧
    queriesOf (queryCommand plainEnv negativeQuery (openWorld (.ok []))).2.trace
      = [{ Prefix := lit "/", Limit := -5, Offset := -1, KeysOnly := false }] := by
  decide

/-- C3, amended. `queryCommand` validates neither offset nor limit: on an open
store it calls `DS.Query` exactly once, with a descriptor carrying the offset
and the limit it was given, whatever their sign; when that call returns an
error it returns this error at once, with nothing done after the call. -/
theorem queryCommand_offset_limit_passed_on (env : Env) (c : Context) (w : World)
    (ds : Datastore) (h : w.DS = some ds) :
    queriesOf (queryCommand env c w).2.trace = queriesOf w.trace ++ [queryDescriptor c] ∧
    (queryDescriptor c).Offset = c.FlagsInt "offset" ∧
    (queryDescriptor c).Limit = c.FlagsInt "limit" ∧
    (∀ err, queryAnswer ds c w = .err err →
      queryCommand env c w = (Ret.err err, afterQuery c w)) :=
  ⟨queryCommand_queries env c w ds h, (queryDescriptor_Offset c).1, (queryDescriptor_Offset c).2,
    fun err hq => queryCommand_err env c w ds err h hq⟩

/-- Witness of C3 amended: the negative query on a store that rejects it. -/
theorem queryCommand_offset_limit_passed_on_witness :
    queriesOf (queryCommand plainEnv negativeQuery (openWorld (.err (Error.ext 3)))).2.trace
      = queriesOf (openWorld (.err (Error.ext 3))).trace ++ [queryDescriptor negativeQuery] ∧
    (queryDescriptor negativeQuery).Offset = -1 ∧
    (queryDescriptor negativeQuery).Limit = -5 ∧
    queryCommand plainEnv negativeQuery (openWorld (.err (Error.ext 3)))
      = (Ret.err (Error.ext 3), afterQuery negativeQuery (openWorld (.err (Error.ext 3)))) :=
  have h := queryCommand_offset_limit_passed_on plainEnv negativeQuery
    (openWorld (.err (Error.ext 3))) (constDS (.err (Error.ext 3))) rfl
  ⟨h.1, h.2.1, h.2.2.1, h.2.2.2 (Error.ext 3) rfl⟩

/-- C4 at the failing input: keys-only is set, the results are saved to
`/tmp/out`, the backend returns the entry `/a` with value `x`; `queryCommand`
writes the value `x` to the file `/tmp/out/a` and reports one byte written. -/
theorem queryCommand_keysOnly_save_writes_value :
    keysOnlySaveQuery.FlagsBool "keys-only" = true ∧
    (queryDescriptor keysOnlySaveQuery).KeysOnly = true ∧
    (queryCommand plainEnv keysOnlySaveQuery (openWorld (.ok [entryA]))).1 = Ret.nil ∧
    Event.FileWrite (lit "/tmp/out/a") (lit "x")
      ∈ (queryCommand plainEnv keysOnlySaveQuery (openWorld (.ok [entryA]))).2.trace ∧
    Event.Println [.str (lit "wrote "), .int 1, .str (lit " bytes to "), .str (lit "/tmp/out/a")]
      ∈ (queryCommand plainEnv keysOnlySaveQuery (openWorld (.ok [entryA]))).2.trace := by
  decide

/-- When the results are printed (no save directory) and keys-only is set, the
loop body prints the key line and nothing else: no value reaches the shell. -/
theorem queryBody_keysOnly_print (env : Env) (c : Context) (e : Result) (w : World) :
    queryBody env c [] true e w
      = (none, w.log (.Println [.str (lit "KEY: "), .str e.Entry.Key])) := by
  simp [queryBody]

theorem emissions_afterQuery (c : Context) (w : World) :
    emissions (afterQuery c w).trace = emissions w.trace := by
  unfold afterQuery
  simp only [emissions_log]
  simp [emissions]

theorem querySave_empty (env : Env) (hist : List Event) : querySave env hist [] = .ok [] := by
  simp [querySave]

/-- C5 at the failing input: the backend reports a read failure on the second
element of the sequence; `queryCommand` prints an empty key and value for it
and returns nil, as it does for the sequence that ends normally after the
first element. -/
theorem queryCommand_read_failure_returns_nil :
    failedRead.Error = some (Error.ext 5) ∧
    (queryCommand plainEnv plainQuery (openWorld (.ok [entryA, failedRead]))).1 = Ret.nil ∧
    (queryCommand plainEnv plainQuery (openWorld (.ok [entryA]))).1 = Ret.nil ∧
    (queryCommand plainEnv plainQuery (openWorld (.ok [entryA, failedRead]))).2.trace
      = (queryCommand plainEnv plainQuery (openWorld (.ok [entryA]))).2.trace
        ++ [.Println [.str (lit "KEY: "), .str []], .Println [.str []]] := by
  decide

/-- How `queryCommand` treats failures of the source: it returns the error of
the `DS.Query` call when that call fails; it never inspects the `Error` of an
element of the result sequence: its return value and its calls are those it
makes for the same sequence with every `Error` cleared, and when the results
are printed and no write to the shell fails it returns nil for every result
sequence. -/
theorem queryCommand_result_errors_ignored (env : Env) (c : Context) (w : World)
    (ds : Datastore) (h : w.DS = some ds) :
    (∀ err, queryAnswer ds c w = .err err → (queryCommand env c w).1 = Ret.err err) ∧
    ((queryCommand env c { w with DS := some (withoutErrors ds) }).1
        = (queryCommand env c w).1 ∧
      (queryCommand env c { w with DS := some (withoutErrors ds) }).2.trace
        = (queryCommand env c w).2.trace) ∧
    (∀ rs, queryAnswer ds c w = .ok rs → c.FlagsString "save" = [] →
      (∀ hist p, env.AppWrite hist p = none) → (queryCommand env c w).1 = Ret.nil) := by
  refine ⟨?_, ?_, ?_⟩
  · intro err hq
    rw [queryCommand_err env c w ds err h hq]
  · have hw : ({ w with DS := some (withoutErrors ds) } : World).DS = some (withoutErrors ds) := rfl
    have ha : afterQuery c { w with DS := some (withoutErrors ds) }
        = { afterQuery c w with DS := some (withoutErrors ds) } := rfl
    cases hq : queryAnswer ds c w with
    | ok rs =>
      have hq' : queryAnswer (withoutErrors ds) c { w with DS := some (withoutErrors ds) }
          = .ok (rs.map clearError) := by
        unfold queryAnswer at hq
        simp only [queryAnswer, withoutErrors, World.log] at hq ⊢
        rw [hq]
      rw [queryCommand_ok env c w ds rs h hq, queryCommand_ok env c _ _ _ hw hq', ha]
      have ht : ({ afterQuery c w with DS := some (withoutErrors ds) } : World).trace
          = (afterQuery c w).trace := rfl
      rw [ht]
      cases querySave env (afterQuery c w).trace (c.FlagsString "save") with
      | error err => exact ⟨rfl, rfl⟩
      | ok dir =>
        simp [queryLoop_DS, queryLoop_clearError]
    | err err =>
      have hq' : queryAnswer (withoutErrors ds) c { w with DS := some (withoutErrors ds) }
          = .err err := by
        unfold queryAnswer at hq
        simp only [queryAnswer, withoutErrors, World.log] at hq ⊢
        rw [hq]
      rw [queryCommand_err env c w ds err h hq, queryCommand_err env c _ _ err hw hq']
      exact ⟨rfl, rfl⟩
    | panic =>
      have hq' : queryAnswer (withoutErrors ds) c { w with DS := some (withoutErrors ds) }
          = .panic := by
        unfold queryAnswer at hq
        simp only [queryAnswer, withoutErrors, World.log] at hq ⊢
        rw [hq]
      rw [queryCommand_panic env c w ds h hq, queryCommand_panic env c _ _ hw hq']
      exact ⟨rfl, rfl⟩
  · intro rs hq hsave hw
    rw [queryCommand_ok env c w ds rs h hq, hsave, querySave_empty]
    exact queryLoop_print_ok env c _ rs _ hw

/-- C6, as stated, fails: the descriptor holds the filter KeyPrefix `/a`, the
backend ignores it and returns the entry `/b` with value `1`, which does not
satisfy the filter; `queryCommand` prints its key and its value. -/
theorem queryCommand_filter_recheck_counterexample :
    Filter.FilterKeyPrefix (lit "/a") ∈ (queryDescriptor prefixQuery).Filters.toList ∧
    (Filter.FilterKeyPrefix (lit "/a")).passes entryB.Entry = false ∧
    Event.Println [.str (lit "KEY: "), .str (lit "/b")]
      ∈ (queryCommand plainEnv prefixQuery (openWorld (.ok [entryB]))).2.trace ∧
    Event.Println [.str (lit "1")]
      ∈ (queryCommand plainEnv prefixQuery (openWorld (.ok [entryB]))).2.trace := by
  decide

/-- C6, amended. `queryCommand` does not check the entries against the
filters of its descriptor: once `DS.Query` has answered and the save directory
(if any) is resolved, what it emits is exactly what emitting the results of the
backend amounts to, in the backend's order, for the first `n` of them, all of
them when it returns nil: the value written to the file named by the save
directory and the key, or else the key line followed, unless keys-only is set,
by the value.  So whenever every entry the backend returned satisfies every
filter of the descriptor, everything `queryCommand` emits is the key or value
of a returned entry that satisfies every filter. -/
theorem queryCommand_emits_backend_results (env : Env) (c : Context) (w : World)
    (ds : Datastore) (rs : List Result) (dir : GoString) (h : w.DS = some ds)
    (hq : queryAnswer ds c w = .ok rs)
    (hs : querySave env (afterQuery c w).trace (c.FlagsString "save") = .ok dir) :
    ∃ n, n ≤ rs.length ∧
      emissions (queryCommand env c w).2.trace
        = emissions w.trace ++ (rs.take n).flatMap (entryEmissions env c dir) ∧
      ((queryCommand env c w).1 = Ret.nil → n = rs.length) ∧
      ((∀ r ∈ rs, ∀ f ∈ (queryDescriptor c).Filters.toList, f.passes r.Entry = true) →
        ∀ em ∈ (emissions (queryCommand env c w).2.trace).drop (emissions w.trace).length,
          ∃ r ∈ rs, em ∈ entryEmissions env c dir r ∧
            ∀ f ∈ (queryDescriptor c).Filters.toList, f.passes r.Entry = true) := by
  rw [queryCommand_ok env c w ds rs h hq, hs]
  obtain ⟨n, hn, hem, hfull⟩ := queryLoop_emissions env c dir rs (afterQuery c w)
  rw [emissions_afterQuery] at hem
  refine ⟨n, hn, hem, hfull, ?_⟩
  intro hall em hmem
  rw [hem, List.drop_left] at hmem
  obtain ⟨r, hr, hin⟩ := List.mem_flatMap.mp hmem
  exact ⟨r, List.mem_of_mem_take hr, hin, hall r (List.mem_of_mem_take hr)⟩

/-- Witness of C6 amended: the query `--fkp /a --fve x` on a store that
returns the entry `/a` with value `x`, which satisfies both filters. -/
theorem queryCommand_emits_backend_results_witness :
    emissions (queryCommand plainEnv prefixValueQuery (openWorld (.ok [entryA]))).2.trace
        = emissions (openWorld (.ok [entryA])).trace
          ++ [Emission.key (lit "/a"), Emission.line (lit "x")] ∧
    ∀ em ∈ (emissions
          (queryCommand plainEnv prefixValueQuery (openWorld (.ok [entryA]))).2.trace).drop
        (emissions (openWorld (.ok [entryA])).trace).length,
      ∃ r ∈ [entryA], em ∈ entryEmissions plainEnv prefixValueQuery [] r ∧
        ∀ f ∈ (queryDescriptor prefixValueQuery).Filters.toList, f.passes r.Entry = true := by
  obtain ⟨n, _, hem, hfull, hpass⟩ :=
    queryCommand_emits_backend_results plainEnv prefixValueQuery (openWorld (.ok [entryA]))
      (constDS (.ok [entryA])) [entryA] [] rfl rfl rfl
  have hn : n = 1 := hfull (by decide)
  subst hn
  exact ⟨hem, hpass (by decide)⟩

/-! ### `requireDS`, `open` and `kinds` -/

/-- The contract of `requireDS`: with no datastore (`DS` nil) the wrapped
command is not run, the world is left as it is and `ERRNoDatastore` is
returned; otherwise the result is that of running the command once. -/
theorem requireDS_contract (f : Command) (c : Context) (w : World) :
    (w.DS = none → requireDS f c w = (Ret.err Error.ERRNoDatastore, w)) ∧
    (w.DS ≠ none → requireDS f c w = f c w) := by
  constructor
  · intro h
    simp only [requireDS, h]
  · intro h
    cases hds : w.DS with
    | none => exact absurd hds h
    | some ds => simp only [requireDS, hds]

/-- Every store command returns `ERRNoDatastore`, and does nothing, while `DS`
is nil. -/
theorem storeCommands_without_datastore (env : Env) (name : String) (c : Context) (w : World)
    (hn : name ∈ storeCommands) (h : w.DS = none) :
    run env name c w = some (Ret.err Error.ERRNoDatastore, w) := by
  simp only [storeCommands, List.mem_cons, List.mem_singleton, List.not_mem_nil, or_false] at hn
  rcases hn with rfl | rfl | rfl | rfl | rfl | rfl | rfl <;>
    simp [run, commands, List.lookup, requireDS, h]

/-- C8 at the failing input: from the state at program start, `open badger
/data` fails inside the constructor (so no open has succeeded and the prompt
is unchanged), yet `DS` has been assigned the constructor's first result and is
no longer nil; `get /k` then does not return `ERRNoDatastore`: `requireDS`
runs `getCommand`, which calls `DS.Get` on the nil pointer. -/
theorem requireDS_after_failed_open :
    initWorld.DS.isNone = true ∧
    (openCommand failingOpenEnv openBadger initWorld).1 = Ret.err (Error.ext 1) ∧
    (openCommand failingOpenEnv openBadger initWorld).2.prompt = initWorld.prompt ∧
    (openCommand failingOpenEnv openBadger initWorld).2.DS.isSome = true ∧
    (run failingOpenEnv "get" getKey (openCommand failingOpenEnv openBadger initWorld).2).map
        (fun r => (r.1, r.2.trace))
      = some (Ret.panic, [Event.badgerNewDatastore (lit "/data"), Event.Get (lit "/k")]) := by
  decide

theorem listedKinds_eq : listedKinds = [lit "badger", lit "blob", lit "flatfs", lit "leveldb"] := by
  decide

theorem mem_listedKinds (k : GoString) :
    k ∈ listedKinds ↔ k = lit "badger" ∨ k = lit "leveldb" ∨ k = lit "flatfs" ∨ k = lit "blob" := by
  rw [listedKinds_eq]
  simp only [List.mem_cons, List.mem_singleton, List.not_mem_nil, or_false]
  tauto

theorem constructions_log (w : World) (ev : Event) :
    constructions (w.log ev).trace = constructions w.trace ++ constructions [ev] := by
  simp [constructions, World.log, List.filter_append]

theorem openCommand_unresolved (env : Env) (c : Context) (w : World) (err : Error)
    (h : resolvePath env w.trace (c.ArgsString "path") = .error err) :
    openCommand env c w = (Ret.err err, w) := by
  unfold resolvePath at h
  unfold openCommand
  dsimp only
  split
  · next err1 heq =>
    rw [heq] at h
    simp only [Except.error.injEq] at h
    rw [h]
  · next fpath heq =>
    rw [heq] at h
    simp only [] at h
    rw [h]

theorem openCommand_unknown (env : Env) (c : Context) (w : World) (fpath : GoString)
    (h : resolvePath env w.trace (c.ArgsString "path") = .ok fpath)
    (hk : c.ArgsString "kind" ∉ listedKinds) :
    openCommand env c w = (Ret.err (Error.unknownKind (c.ArgsString "kind")), w) := by
  rw [mem_listedKinds] at hk
  push_neg at hk
  obtain ⟨h1, h2, h3, h4⟩ := hk
  unfold resolvePath at h
  unfold openCommand
  dsimp only
  split
  · next err1 heq =>
    rw [heq] at h
    cases h
  · next fp heq =>
    rw [heq] at h
    simp only [] at h
    rw [h]
    simp only [h1, h2, h3, h4, if_false]

theorem openCommand_known (env : Env) (c : Context) (w : World) (fpath : GoString)
    (h : resolvePath env w.trace (c.ArgsString "path") = .ok fpath)
    (hk : c.ArgsString "kind" ∈ listedKinds) :
    (constructions (openCommand env c w).2.trace).length
      = (constructions w.trace).length + 1 := by
  rw [mem_listedKinds] at hk
  unfold resolvePath at h
  unfold openCommand
  dsimp only
  split
  · next err1 heq =>
    rw [heq] at h
    cases h
  · next fp heq =>
    rw [heq] at h
    simp only [] at h
    rw [h]
    dsimp only
    have d1 : lit "leveldb" ≠ lit "badger" := by decide
    have d2 : lit "flatfs" ≠ lit "badger" := by decide
    have d3 : lit "flatfs" ≠ lit "leveldb" := by decide
    have d4 : lit "blob" ≠ lit "badger" := by decide
    have d5 : lit "blob" ≠ lit "leveldb" := by decide
    have d6 : lit "blob" ≠ lit "flatfs" := by decide
    rcases hk with hk | hk | hk | hk <;> rw [hk] <;>
      simp only [d1, d2, d3, d4, d5, d6, if_true, if_false] <;>
      split <;> simp [constructions, World.log, List.filter_append, isConstructor]

theorem kindsCommand_lines (c : Context) (w : World) :
    (kindsCommand c w).1 = Ret.nil ∧
    printedLines (kindsCommand c w).2.trace = printedLines w.trace ++ listedKinds := by
  refine ⟨rfl, ?_⟩
  rw [listedKinds_eq]
  simp [kindsCommand, World.log, printedLines, List.filterMap_append]

/-- C9, as stated, fails: with the path `~/data` and no home directory,
`open sqlite ~/data` returns the error of the home directory lookup, not the
unknown-kind error, although `sqlite` is not a listed kind; and `open badger
~/data` returns the same error without calling any constructor, although
`badger` is a listed kind. -/
theorem openCommand_unresolved_path_counterexample :
    openUnknownHome.ArgsString "kind" = lit "sqlite" ∧ lit "sqlite" ∉ listedKinds ∧
    (openCommand plainEnv openUnknownHome initWorld).1 = Ret.err (Error.ext 2) ∧
    (openCommand plainEnv openUnknownHome initWorld).1
      ≠ Ret.err (Error.unknownKind (lit "sqlite")) ∧
    openBadgerHome.ArgsString "kind" = lit "badger" ∧ lit "badger" ∈ listedKinds ∧
    (openCommand plainEnv openBadgerHome initWorld).1 = Ret.err (Error.ext 2) ∧
    constructions (openCommand plainEnv openBadgerHome initWorld).2.trace = [] := by
  decide

/-- C9, amended. `kindsCommand` prints badger, blob, flatfs, leveldb.
`openCommand` first resolves the path (`expandHome`, then `filepath.Abs`);
when that fails it returns the failure for every kind, with no constructor
called and the prompt and `DS` unchanged.  When the path resolves, it calls a
datastore constructor if and only if the kind is one of the listed kinds, and
for any other kind it returns the unknown-kind error and leaves the prompt and
`DS` unchanged. -/
theorem openCommand_kinds_listed (env : Env) (c : Context) (w : World) :
    listedKinds = [lit "badger", lit "blob", lit "flatfs", lit "leveldb"] ∧
    (∀ c0 w0, (kindsCommand c0 w0).1 = Ret.nil ∧
      printedLines (kindsCommand c0 w0).2.trace = printedLines w0.trace ++ listedKinds) ∧
    (∀ fpath, resolvePath env w.trace (c.ArgsString "path") = .ok fpath →
      (c.ArgsString "kind" ∈ listedKinds ↔
        (constructions (openCommand env c w).2.trace).length
          = (constructions w.trace).length + 1) ∧
      (c.ArgsString "kind" ∉ listedKinds →
        openCommand env c w = (Ret.err (Error.unknownKind (c.ArgsString "kind")), w))) ∧
    (∀ err, resolvePath env w.trace (c.ArgsString "path") = .error err →
      openCommand env c w = (Ret.err err, w)) := by
  refine ⟨listedKinds_eq, kindsCommand_lines, ?_, ?_⟩
  · intro fpath h
    refine ⟨⟨openCommand_known env c w fpath h, ?_⟩, openCommand_unknown env c w fpath h⟩
    intro hlen
    by_contra hk
    rw [openCommand_unknown env c w fpath h hk] at hlen
    simp at hlen
  · intro err h
    exact openCommand_unresolved env c w err h

/-- Witness of C9 amended: `open badger /data` and `open sqlite /data` where
paths resolve, `open badger ~/data` where there is no home directory. -/
theorem openCommand_kinds_listed_witness :
    (constructions (openCommand workingEnv openBadger initWorld).2.trace).length
      = (constructions initWorld.trace).length + 1 ∧
    openCommand workingEnv openUnknown initWorld
      = (Ret.err (Error.unknownKind (openUnknown.ArgsString "kind")), initWorld) ∧
    openCommand plainEnv openBadgerHome initWorld = (Ret.err (Error.ext 2), initWorld) :=
  ⟨((openCommand_kinds_listed workingEnv openBadger initWorld).2.2.1 (lit "/data") rfl).1.mp
      (by decide),
   ((openCommand_kinds_listed workingEnv openUnknown initWorld).2.2.1 (lit "/data") rfl).2
      (by decide),
   (openCommand_kinds_listed plainEnv openBadgerHome initWorld).2.2.2 (Error.ext 2) rfl⟩

end Dshell
